import Mathlib

/-
  Verification of the client-side rate-limited request scheduler and its
  callers in chanman33/vector-embeddings-scrimba.

  The queue-based RateLimiter is embedded from src/unnamed/part_000
  (lines 318-368): fields tokens / maxTokens / lastRefill / waitQueue, the
  refill formula Math.floor(timePassed / 60000 * maxTokens), the
  processQueue loop that refills, suspends when tokens < 1, and otherwise
  shifts the oldest queue entry, decrements tokens and resolves it with
  true.  Concurrency is modelled by a small-step semantics: the
  environment interleaves arrivals (the enqueue half of waitForToken),
  clock advances (ticks; the clock never decreases) and single iterations
  of the processQueue loop body.  Machine time is Nat milliseconds and the
  token count is Int so that non-negativity is a theorem, not a typing
  artifact.  The grants field instruments which queue entries were
  resolved, in resolution order, with the value they were resolved with
  and the token count observed just before the decrement; suspensions
  counts how often the tokens < 1 branch (await delay(waitTime)) was taken.
-/

namespace VecEmb

/-- How a pending waitForToken promise was settled.  The JS promise
executor captures both resolve and reject; the rejected constructor
mirrors the reject capability, which the scheduler never uses. -/
inductive Settle where
  | resolved (v : Bool)
  | rejected
  deriving Repr, DecidableEq

/-- Instrumentation record for one resolved queue entry: which caller,
with which value, and the token count just before the decrement made on
its behalf. -/
structure Grant where
  caller : Nat
  outcome : Settle
  tokensBefore : Int
  deriving Repr, DecidableEq

/-- State of the queue-based RateLimiter of src/unnamed/part_000, plus the
current clock reading and instrumentation (grants, suspensions). -/
@[ext] structure RateLimiter where
  tokens : Int
  maxTokens : Nat
  lastRefill : Nat
  waitQueue : List Nat
  now : Nat
  grants : List Grant
  suspensions : Nat
  deriving Repr, DecidableEq

/-- `new RateLimiter(tokensPerMinute)`: tokens = maxTokens =
tokensPerMinute, lastRefill = Date.now().  Construction time is taken as
clock origin 0. -/
def RateLimiter.init (tokensPerMinute : Nat) : RateLimiter :=
  { tokens := tokensPerMinute
    maxTokens := tokensPerMinute
    lastRefill := 0
    waitQueue := []
    now := 0
    grants := []
    suspensions := 0 }

/-- `Math.floor(timePassed / (60 * 1000) * this.maxTokens)` with
timePassed = now - lastRefill; floor of an exact rational product,
computed as Nat division. -/
def RateLimiter.refillAmount (s : RateLimiter) : Nat :=
  (s.now - s.lastRefill) * s.maxTokens / 60000

/-- The refill half of one processQueue iteration:
`this.tokens = Math.min(this.maxTokens, this.tokens + refillAmount);
this.lastRefill = now;`. -/
def RateLimiter.refill (s : RateLimiter) : RateLimiter :=
  { s with
    tokens := min (s.maxTokens : Int) (s.tokens + (s.refillAmount : Int))
    lastRefill := s.now }

/-- One iteration of the body of `processQueue`: nothing happens on an
empty queue (the while loop is not running); otherwise refill, then
either suspend (tokens < 1: the code awaits delay(waitTime) and
continues; time passing during that delay is the environment's tick
events) or shift the oldest entry, decrement tokens and resolve it with
true. -/
def RateLimiter.processQueueStep (s : RateLimiter) : RateLimiter :=
  match s.waitQueue with
  | [] => s
  | c :: rest =>
    if s.refill.tokens < 1 then
      { s.refill with suspensions := s.refill.suspensions + 1 }
    else
      { s.refill with
        waitQueue := rest
        tokens := s.refill.tokens - 1
        grants := s.refill.grants ++ [⟨c, Settle.resolved true, s.refill.tokens⟩] }

/-- `Math.ceil((60 * 1000) / this.maxTokens)`, the delay used when no
token is available. -/
def RateLimiter.waitTime (s : RateLimiter) : Nat :=
  (60000 + s.maxTokens - 1) / s.maxTokens

/-- Environment events interleaved with the scheduler: a caller invoking
waitForToken (its enqueue half `this.waitQueue.push({resolve, reject})`),
the clock advancing by dt ≥ 0 milliseconds, and one iteration of the
processQueue loop body. -/
inductive Event where
  | arrive (c : Nat)
  | tick (dt : Nat)
  | service
  deriving Repr, DecidableEq

/-- Small-step transition. -/
def RateLimiter.step (s : RateLimiter) : Event → RateLimiter
  | Event.arrive c => { s with waitQueue := s.waitQueue ++ [c] }
  | Event.tick dt => { s with now := s.now + dt }
  | Event.service => s.processQueueStep

/-- Run a sequence of interleaved events. -/
def RateLimiter.run (s : RateLimiter) (es : List Event) : RateLimiter :=
  es.foldl RateLimiter.step s

/-- Callers that invoked waitForToken, in arrival order. -/
def arrivalsOf : List Event → List Nat
  | [] => []
  | Event.arrive c :: es => c :: arrivalsOf es
  | Event.tick _ :: es => arrivalsOf es
  | Event.service :: es => arrivalsOf es

theorem RateLimiter.run_nil (s : RateLimiter) : s.run [] = s := rfl

theorem RateLimiter.run_cons (s : RateLimiter) (e : Event) (es : List Event) :
    s.run (e :: es) = (s.step e).run es := rfl

theorem RateLimiter.run_append (s : RateLimiter) (es fs : List Event) :
    s.run (es ++ fs) = (s.run es).run fs := by
  unfold RateLimiter.run
  apply List.foldl_append

theorem RateLimiter.refill_maxTokens (s : RateLimiter) :
    s.refill.maxTokens = s.maxTokens := rfl

theorem RateLimiter.processQueueStep_maxTokens (s : RateLimiter) :
    s.processQueueStep.maxTokens = s.maxTokens := by
  unfold RateLimiter.processQueueStep
  split
  · rfl
  · split <;> rfl

theorem RateLimiter.step_maxTokens (s : RateLimiter) (e : Event) :
    (s.step e).maxTokens = s.maxTokens := by
  cases e with
  | arrive c => rfl
  | tick dt => rfl
  | service => exact s.processQueueStep_maxTokens

theorem RateLimiter.run_maxTokens (es : List Event) :
    ∀ s : RateLimiter, (s.run es).maxTokens = s.maxTokens := by
  induction es with
  | nil => intro s; rfl
  | cons e es ih =>
    intro s
    rw [RateLimiter.run_cons, ih, RateLimiter.step_maxTokens]

/-- The token-bucket safety predicate: the count is between 0 and
capacity. -/
def RateLimiter.Inv (s : RateLimiter) : Prop :=
  0 ≤ s.tokens ∧ s.tokens ≤ (s.maxTokens : Int)

theorem RateLimiter.refill_tokens (s : RateLimiter) :
    s.refill.tokens = min (s.maxTokens : Int) (s.tokens + (s.refillAmount : Int)) := rfl

theorem RateLimiter.refill_inv (s : RateLimiter) (h : s.Inv) : s.refill.Inv := by
  rcases h with ⟨h0, _⟩
  unfold RateLimiter.Inv
  rw [RateLimiter.refill_maxTokens, RateLimiter.refill_tokens]
  omega

theorem RateLimiter.processQueueStep_inv (s : RateLimiter) (h : s.Inv) :
    s.processQueueStep.Inv := by
  have hr := s.refill_inv h
  unfold RateLimiter.Inv at hr ⊢
  rw [RateLimiter.refill_maxTokens] at hr
  unfold RateLimiter.processQueueStep
  split
  · exact h
  · split
    · rename_i hlt
      exact ⟨hr.1, hr.2⟩
    · rename_i hlt
      refine ⟨?_, ?_⟩
      · show (0:Int) ≤ s.refill.tokens - 1
        omega
      · show s.refill.tokens - 1 ≤ (s.maxTokens : Int)
        omega

theorem RateLimiter.step_inv (s : RateLimiter) (e : Event) (h : s.Inv) :
    (s.step e).Inv := by
  cases e with
  | arrive c => exact h
  | tick dt => exact h
  | service => exact s.processQueueStep_inv h

theorem RateLimiter.run_inv (es : List Event) :
    ∀ s : RateLimiter, s.Inv → (s.run es).Inv := by
  induction es with
  | nil => intro s h; exact h
  | cons e es ih =>
    intro s h
    rw [RateLimiter.run_cons]
    exact ih _ (s.step_inv e h)

theorem RateLimiter.init_inv (cap : Nat) : (RateLimiter.init cap).Inv :=
  ⟨Int.ofNat_nonneg _, le_refl _⟩

/-- **C1.** For every sequence of interleaved arrivals, clock advances
and loop iterations, the scheduler's token count stays within
0 ≤ tokens ≤ capacity, and a refill from any reachable state adds exactly
floor((now - lastRefill) / 60000 * capacity) tokens, clamped so the count
never exceeds capacity (the amount actually added is the minimum of the
floor formula and the gap capacity - tokens).  Since the event list is
universally quantified, the invariant holds at every observation point of
every interleaving. -/
theorem c1_token_bucket_invariant (cap : Nat) (es : List Event) :
    (0 ≤ ((RateLimiter.init cap).run es).tokens ∧
      ((RateLimiter.init cap).run es).tokens ≤ (cap : Int)) ∧
    ((RateLimiter.init cap).run es).refill.tokens -
        ((RateLimiter.init cap).run es).tokens =
      min ((((RateLimiter.init cap).run es).refillAmount : Int))
        ((cap : Int) - ((RateLimiter.init cap).run es).tokens) := by
  have hmax : ((RateLimiter.init cap).run es).maxTokens = cap :=
    RateLimiter.run_maxTokens es (RateLimiter.init cap)
  have hinv :=
    RateLimiter.run_inv es (RateLimiter.init cap) (RateLimiter.init_inv cap)
  unfold RateLimiter.Inv at hinv
  rcases hinv with ⟨h0, h1⟩
  rw [hmax] at h1
  refine ⟨⟨h0, h1⟩, ?_⟩
  rw [RateLimiter.refill_tokens, hmax]
  omega

theorem RateLimiter.processQueueStep_ids (s : RateLimiter) :
    s.processQueueStep.grants.map Grant.caller ++ s.processQueueStep.waitQueue
      = s.grants.map Grant.caller ++ s.waitQueue := by
  unfold RateLimiter.processQueueStep
  split
  · rfl
  · rename_i c rest heq
    split
    · simp [RateLimiter.refill, heq]
    · simp [RateLimiter.refill, heq]

theorem RateLimiter.run_fifo (es : List Event) :
    ∀ s : RateLimiter,
      (s.run es).grants.map Grant.caller ++ (s.run es).waitQueue
        = s.grants.map Grant.caller ++ s.waitQueue ++ arrivalsOf es := by
  induction es with
  | nil => intro s; simp [RateLimiter.run_nil, arrivalsOf]
  | cons e es ih =>
    intro s
    rw [RateLimiter.run_cons, ih]
    cases e with
    | arrive c => simp [RateLimiter.step, arrivalsOf]
    | tick dt => simp [RateLimiter.step, arrivalsOf]
    | service =>
      show (s.processQueueStep.grants.map Grant.caller ++
          s.processQueueStep.waitQueue) ++ arrivalsOf es = _
      rw [RateLimiter.processQueueStep_ids]
      simp [arrivalsOf]

/-- **C2.** The scheduler resolves callers in strict FIFO order: for every
interleaving of arrivals, clock advances and processQueue iterations, the
sequence of resolved callers (in resolution order) followed by the still
pending queue equals the sequence of callers in arrival order.  In
particular the resolved callers form a prefix of the arrival sequence, so
whenever caller A arrives before caller B, A is resolved no later than B,
and no later-arriving caller is ever granted a token while an
earlier-arriving one is still pending. -/
theorem c2_fifo_order (cap : Nat) (es : List Event) :
    ((RateLimiter.init cap).run es).grants.map Grant.caller ++
        ((RateLimiter.init cap).run es).waitQueue = arrivalsOf es := by
  have h := RateLimiter.run_fifo es (RateLimiter.init cap)
  simpa [RateLimiter.init] using h

theorem nat_div_add_div_le (a b d : Nat) : a / d + b / d ≤ (a + b) / d := by
  rcases Nat.eq_zero_or_pos d with h | h
  · subst h; simp
  · rw [Nat.le_div_iff_mul_le h]
    have ha := Nat.div_mul_le_self a d
    have hb := Nat.div_mul_le_self b d
    have : (a / d + b / d) * d = a / d * d + b / d * d := by ring
    omega

theorem refill_budget (l n m : Nat) (h : l ≤ n) :
    l * m / 60000 + (n - l) * m / 60000 ≤ n * m / 60000 := by
  have h2 : l * m + (n - l) * m = n * m := by
    rw [← Nat.add_mul, Nat.add_sub_cancel' h]
  calc l * m / 60000 + (n - l) * m / 60000
      ≤ (l * m + (n - l) * m) / 60000 := nat_div_add_div_le _ _ _
    _ = n * m / 60000 := by rw [h2]

/-- Token conservation: the number of grants handed out plus the tokens
still in the bucket never exceeds the initial capacity plus the total
refill accrued up to lastRefill, and the clock reading is never behind
lastRefill. -/
def RateLimiter.Sound (s : RateLimiter) : Prop :=
  0 ≤ s.tokens ∧ s.tokens ≤ (s.maxTokens : Int) ∧ s.lastRefill ≤ s.now ∧
    (s.grants.length : Int) + s.tokens ≤
      (s.maxTokens : Int) + ((s.lastRefill * s.maxTokens / 60000 : Nat) : Int)

theorem RateLimiter.refill_sound (s : RateLimiter) (h : s.Sound) :
    s.refill.Sound := by
  obtain ⟨h0, h1, h2, h3⟩ := h
  have hb := refill_budget s.lastRefill s.now s.maxTokens h2
  refine ⟨?_, ?_, ?_, ?_⟩
  · rw [RateLimiter.refill_tokens]; omega
  · rw [RateLimiter.refill_tokens, RateLimiter.refill_maxTokens]; omega
  · show s.now ≤ s.now; exact le_refl _
  · show (s.refill.grants.length : Int) + s.refill.tokens ≤
      (s.maxTokens : Int) + ((s.now * s.maxTokens / 60000 : Nat) : Int)
    have hg : s.refill.grants = s.grants := rfl
    rw [hg, RateLimiter.refill_tokens]
    unfold RateLimiter.refillAmount
    omega

theorem RateLimiter.processQueueStep_sound (s : RateLimiter) (h : s.Sound) :
    s.processQueueStep.Sound := by
  have hr := s.refill_sound h
  unfold RateLimiter.processQueueStep
  split
  · exact h
  · rename_i c rest heq
    split
    · exact ⟨hr.1, hr.2.1, hr.2.2.1, hr.2.2.2⟩
    · rename_i hlt
      obtain ⟨r0, r1, r2, r3⟩ := hr
      refine ⟨?_, ?_, r2, ?_⟩
      · show (0:Int) ≤ s.refill.tokens - 1
        omega
      · show s.refill.tokens - 1 ≤ (s.maxTokens : Int)
        have : s.refill.tokens ≤ ((s.refill.maxTokens : Nat) : Int) := r1
        rw [RateLimiter.refill_maxTokens] at this
        omega
      · show ((s.refill.grants ++ [Grant.mk c (Settle.resolved true) s.refill.tokens]).length : Int)
            + (s.refill.tokens - 1) ≤
          (s.maxTokens : Int) + ((s.refill.lastRefill * s.maxTokens / 60000 : Nat) : Int)
        have h3 : (s.refill.grants.length : Int) + s.refill.tokens ≤
            (s.refill.maxTokens : Int) +
              ((s.refill.lastRefill * s.refill.maxTokens / 60000 : Nat) : Int) := r3
        rw [RateLimiter.refill_maxTokens] at h3
        simp only [List.length_append, List.length_singleton]
        push_cast
        push_cast at h3
        omega

theorem RateLimiter.step_sound (s : RateLimiter) (e : Event) (h : s.Sound) :
    (s.step e).Sound := by
  cases e with
  | arrive c => exact h
  | tick dt =>
    obtain ⟨h0, h1, h2, h3⟩ := h
    exact ⟨h0, h1, by show s.lastRefill ≤ s.now + dt; omega, h3⟩
  | service => exact s.processQueueStep_sound h

theorem RateLimiter.run_sound (es : List Event) :
    ∀ s : RateLimiter, s.Sound → (s.run es).Sound := by
  induction es with
  | nil => intro s h; exact h
  | cons e es ih =>
    intro s h
    rw [RateLimiter.run_cons]
    exact ih _ (s.step_sound e h)

theorem RateLimiter.init_sound (cap : Nat) : (RateLimiter.init cap).Sound := by
  refine ⟨Int.ofNat_nonneg _, le_refl _, le_refl _, ?_⟩
  show ((0:Nat) : Int) + (cap : Int) ≤ (cap : Int) + ((0 * cap / 60000 : Nat) : Int)
  simp

/-- Upper bound on the number of grants in terms of elapsed clock time:
at every observation point, at most capacity + floor(now * capacity /
60000) tokens have ever been handed out. -/
theorem RateLimiter.grants_le (cap : Nat) (es : List Event) :
    ((RateLimiter.init cap).run es).grants.length ≤
      cap + ((RateLimiter.init cap).run es).now * cap / 60000 := by
  have hs := RateLimiter.run_sound es (RateLimiter.init cap) (RateLimiter.init_sound cap)
  have hmax : ((RateLimiter.init cap).run es).maxTokens = cap :=
    RateLimiter.run_maxTokens es (RateLimiter.init cap)
  obtain ⟨h0, h1, h2, h3⟩ := hs
  rw [hmax] at h3
  have hmono : ((RateLimiter.init cap).run es).lastRefill * cap / 60000 ≤
      ((RateLimiter.init cap).run es).now * cap / 60000 :=
    Nat.div_le_div_right (Nat.mul_le_mul_right cap h2)
  omega

theorem RateLimiter.run_arrivals (l : List Nat) :
    ∀ s : RateLimiter, s.run (l.map Event.arrive) =
      { s with waitQueue := s.waitQueue ++ l } := by
  induction l with
  | nil =>
    intro s
    show s = _
    ext <;> simp
  | cons c l ih =>
    intro s
    rw [List.map_cons, RateLimiter.run_cons]
    show RateLimiter.run { s with waitQueue := s.waitQueue ++ [c] } (l.map Event.arrive) = _
    rw [ih]
    ext <;> simp

/-- Draining a queue of n callers by n processQueue iterations with no
time passing and at least n tokens in the bucket: everyone is granted in
queue order, no iteration suspends, and the clock does not move. -/
theorem RateLimiter.run_services_burst (n : Nat) :
    ∀ s : RateLimiter, s.now = s.lastRefill → s.waitQueue.length = n →
      (n : Int) ≤ s.tokens → s.tokens ≤ (s.maxTokens : Int) →
      ((s.run (List.replicate n Event.service)).grants.map Grant.caller
          = s.grants.map Grant.caller ++ s.waitQueue ∧
        (s.run (List.replicate n Event.service)).suspensions = s.suspensions ∧
        (s.run (List.replicate n Event.service)).now = s.now ∧
        (s.run (List.replicate n Event.service)).waitQueue = []) := by
  induction n with
  | zero =>
    intro s h1 h2 h3 h4
    have hq : s.waitQueue = [] := List.length_eq_zero.mp h2
    rw [List.replicate_zero, RateLimiter.run_nil]
    exact ⟨by rw [hq]; simp, rfl, rfl, hq⟩
  | succ n ih =>
    intro s h1 h2 h3 h4
    obtain ⟨c, rest, hq⟩ : ∃ c rest, s.waitQueue = c :: rest := by
      cases hcase : s.waitQueue with
      | nil => rw [hcase] at h2; simp at h2
      | cons c rest => exact ⟨c, rest, rfl⟩
    have hamt : s.refillAmount = 0 := by
      unfold RateLimiter.refillAmount
      rw [← h1]
      simp
    have hrt : s.refill.tokens = s.tokens := by
      rw [RateLimiter.refill_tokens, hamt]
      have : ((0:Nat) : Int) = 0 := rfl
      rw [this, add_zero]
      have hcast : ((n:Int) + 1) ≤ s.tokens := by push_cast at h3; omega
      exact min_eq_right h4
    have hnot : ¬ s.refill.tokens < 1 := by
      rw [hrt]
      push_cast at h3
      omega
    have hstep : s.step Event.service =
        { s with
          tokens := s.tokens - 1
          lastRefill := s.now
          waitQueue := rest
          grants := s.grants ++ [Grant.mk c (Settle.resolved true) s.tokens] } := by
      show s.processQueueStep = _
      unfold RateLimiter.processQueueStep
      rw [hq]
      show (if s.refill.tokens < 1 then _ else _) = _
      rw [if_neg hnot]
      ext <;> simp [RateLimiter.refill, hamt, h1, min_eq_right h4]
    rw [List.replicate_succ, RateLimiter.run_cons, hstep]
    have hlen : rest.length = n := by
      rw [hq] at h2
      simpa using h2
    have h3' : (n : Int) ≤ s.tokens - 1 := by push_cast at h3 ⊢; omega
    have h4' : s.tokens - 1 ≤ (s.maxTokens : Int) := by omega
    obtain ⟨g1, g2, g3, g4⟩ := ih
      { s with
        tokens := s.tokens - 1
        lastRefill := s.now
        waitQueue := rest
        grants := s.grants ++ [Grant.mk c (Settle.resolved true) s.tokens] }
      rfl hlen h3' h4'
    refine ⟨?_, g2, g3, g4⟩
    rw [g1, hq]
    simp

/-- The trace of the concrete burst scenario: capacity distinct callers
all invoke waitForToken at t = 0, then the processQueue loop runs its
iterations. -/
def burstTrace (cap : Nat) : List Event :=
  (List.range cap).map Event.arrive ++ List.replicate cap Event.service

/-- **C4.** For a freshly constructed scheduler of positive capacity C:
(i) C callers arriving in immediate succession at t = 0 are all granted
with no suspension and no clock advance — the grant sequence is exactly
the C callers in order, the suspend branch is never taken, and the clock
still reads 0; and (ii) in every interleaving, by the time C + 1 grants
have been handed out, at least 60000 / C milliseconds of clock time have
elapsed since construction (stated integrally: now * C ≥ 60000).
Because the event list is universally quantified, (ii) holds at the
observation point of the (C+1)-th grant itself. -/
theorem c4_burst_grant_and_lower_bound (cap : Nat) (hcap : 1 ≤ cap)
    (es : List Event) :
    (((RateLimiter.init cap).run (burstTrace cap)).grants.map Grant.caller
        = List.range cap ∧
      ((RateLimiter.init cap).run (burstTrace cap)).suspensions = 0 ∧
      ((RateLimiter.init cap).run (burstTrace cap)).now = 0) ∧
    (cap + 1 ≤ ((RateLimiter.init cap).run es).grants.length →
      60000 ≤ ((RateLimiter.init cap).run es).now * cap) := by
  constructor
  · unfold burstTrace
    rw [RateLimiter.run_append, RateLimiter.run_arrivals]
    have hb := RateLimiter.run_services_burst cap
      { RateLimiter.init cap with
        waitQueue := (RateLimiter.init cap).waitQueue ++ List.range cap }
      rfl (by simp [RateLimiter.init]) (by simp [RateLimiter.init])
      (by simp [RateLimiter.init])
    obtain ⟨g1, g2, g3, _⟩ := hb
    refine ⟨?_, ?_, ?_⟩
    · rw [g1]; simp [RateLimiter.init]
    · rw [g2]; simp [RateLimiter.init]
    · rw [g3]; simp [RateLimiter.init]
  · intro hgr
    have hle := RateLimiter.grants_le cap es
    have h1 : 1 ≤ ((RateLimiter.init cap).run es).now * cap / 60000 := by omega
    have h60 : (0:Nat) < 60000 := by omega
    have := (Nat.le_div_iff_mul_le h60).mp h1
    omega

/-- A four-caller trace for capacity 3: three callers at t = 0 drain the
bucket, a fourth waits; after 20000 ms one token has accrued and the
fourth is granted. -/
def c4Trace : List Event :=
  [Event.arrive 0, Event.arrive 1, Event.arrive 2, Event.arrive 3,
   Event.service, Event.service, Event.service, Event.tick 20000, Event.service]

theorem c4_witness :
    ((1:Nat) ≤ 3 ∧ 4 ≤ ((RateLimiter.init 3).run c4Trace).grants.length) ∧
    (((RateLimiter.init 3).run (burstTrace 3)).grants.map Grant.caller
        = List.range 3 ∧
      ((RateLimiter.init 3).run (burstTrace 3)).suspensions = 0 ∧
      ((RateLimiter.init 3).run (burstTrace 3)).now = 0) ∧
    60000 ≤ ((RateLimiter.init 3).run c4Trace).now * 3 :=
  ⟨⟨by decide, by decide⟩,
    (c4_burst_grant_and_lower_bound 3 (by decide) c4Trace).1,
    (c4_burst_grant_and_lower_bound 3 (by decide) c4Trace).2 (by decide)⟩

/-- The properties of a single resolved waitForToken call: settled by
resolve(true) — never by reject — and only from a state that held at
least one token (which the grant then decrements). -/
def GrantOk (g : Grant) : Prop :=
  g.outcome = Settle.resolved true ∧ 1 ≤ g.tokensBefore

theorem RateLimiter.processQueueStep_grantOk (s : RateLimiter)
    (h : ∀ g ∈ s.grants, GrantOk g) :
    ∀ g ∈ s.processQueueStep.grants, GrantOk g := by
  unfold RateLimiter.processQueueStep
  split
  · exact h
  · rename_i c rest heq
    split
    · exact h
    · rename_i hlt
      intro g hg
      have hg' : g ∈ s.grants ∨ g = Grant.mk c (Settle.resolved true) s.refill.tokens := by
        simpa [RateLimiter.refill] using hg
      rcases hg' with hg' | hg'
      · exact h g hg'
      · subst hg'
        refine ⟨rfl, ?_⟩
        show (1:Int) ≤ s.refill.tokens
        omega

theorem RateLimiter.step_grantOk (s : RateLimiter) (e : Event)
    (h : ∀ g ∈ s.grants, GrantOk g) :
    ∀ g ∈ (s.step e).grants, GrantOk g := by
  cases e with
  | arrive c => exact h
  | tick dt => exact h
  | service => exact s.processQueueStep_grantOk h

theorem RateLimiter.run_grantOk (es : List Event) :
    ∀ s : RateLimiter, (∀ g ∈ s.grants, GrantOk g) →
      ∀ g ∈ (s.run es).grants, GrantOk g := by
  induction es with
  | nil => intro s h; exact h
  | cons e es ih =>
    intro s h
    rw [RateLimiter.run_cons]
    exact ih _ (s.step_grantOk e h)

/-- **C8.** waitForToken never rejects and the scheduler never produces an
error: in every interleaving with pairwise distinct callers, each caller
is resolved at most once; every resolution carries the value true and was
produced by the resolve capability (never reject); and a resolution
happens only from a state holding at least one token, which the grant
decrements on the caller's behalf (tokensBefore records the count just
before the `this.tokens--`). -/
theorem c8_waitForToken_resolution (cap : Nat) (es : List Event)
    (hnd : (arrivalsOf es).Nodup) :
    (((RateLimiter.init cap).run es).grants.map Grant.caller).Nodup ∧
    ∀ g ∈ ((RateLimiter.init cap).run es).grants,
      g.outcome = Settle.resolved true ∧ 1 ≤ g.tokensBefore := by
  constructor
  · have h : ((RateLimiter.init cap).run es).grants.map Grant.caller ++
        ((RateLimiter.init cap).run es).waitQueue = arrivalsOf es := by
      simpa [RateLimiter.init] using RateLimiter.run_fifo es (RateLimiter.init cap)
    have hsub : List.Sublist
        (((RateLimiter.init cap).run es).grants.map Grant.caller)
        (arrivalsOf es) := by
      rw [← h]
      exact List.sublist_append_left _ _
    exact hnd.sublist hsub
  · exact RateLimiter.run_grantOk es (RateLimiter.init cap) (by simp [RateLimiter.init])

/-- A concrete interleaving with two distinct callers and time passing. -/
def c8Trace : List Event :=
  [Event.arrive 4, Event.service, Event.arrive 9, Event.tick 45000, Event.service]

theorem c8_witness :
    (arrivalsOf c8Trace).Nodup ∧
    ((((RateLimiter.init 1).run c8Trace).grants.map Grant.caller).Nodup ∧
      ∀ g ∈ ((RateLimiter.init 1).run c8Trace).grants,
        g.outcome = Settle.resolved true ∧ 1 ≤ g.tokensBefore) :=
  ⟨by decide, c8_waitForToken_resolution 1 c8Trace (by decide)⟩

/-
  Retrying API invoker, embedded from getEmbeddingWithRetry
  (src/index.js lines 47-68, and the identical createEmbeddingWithRetry
  of src/unnamed/part_001 lines 72-97):

    for (let i = 0; i < retries; i++) {
      try {
        await rateLimiter.waitForToken();
        ... openai.embeddings.create(...) ...
        return ...;
      } catch (error) {
        if (error.status === 429) { await delay(25000); continue; }
        throw error;
      }
    }
    throw new Error(max retries reached);

  The provider is an oracle mapping the attempt number to the outcome of
  that outbound call; the invoker returns the JS function's result
  (Except: ok payload, or the thrown error) together with the ordered
  trace of its observable actions (token acquisitions, outbound calls,
  delays).
-/

/-- A provider error as the catch blocks observe it: only the status
field is inspected (error.status === 429). -/
structure ApiError where
  status : Nat
  deriving Repr, DecidableEq

/-- Outcome of one outbound OpenAI call. -/
inductive CallResult (α : Type) where
  | ok (v : α)
  | err (e : ApiError)
  deriving Repr, DecidableEq

/-- What getEmbeddingWithRetry can throw: the distinct max-retries error
(new Error after the loop) or a propagated non-retryable provider
error. -/
inductive RetryError where
  | maxRetries
  | provider (e : ApiError)
  deriving Repr, DecidableEq

/-- Observable actions, in program order: acquiring a scheduler token
(await rateLimiter.waitForToken()), performing the outbound call of a
given attempt, awaiting delay(ms), querying external storage. -/
inductive Action where
  | acquireToken
  | apiCall (attempt : Nat)
  | delayMs (ms : Nat)
  | storageCall
  deriving Repr, DecidableEq

/-- The retry loop: fuel is the number of attempts still allowed
(retries - i), the second argument the current attempt index. -/
def getEmbeddingLoop {α : Type} (provider : Nat → CallResult α) :
    Nat → Nat → Except RetryError α × List Action
  | 0, _ => (Except.error RetryError.maxRetries, [])
  | fuel + 1, i =>
    match provider i with
    | CallResult.ok v => (Except.ok v, [Action.acquireToken, Action.apiCall i])
    | CallResult.err e =>
      if e.status = 429 then
        let r := getEmbeddingLoop provider fuel (i + 1)
        (r.1, Action.acquireToken :: Action.apiCall i :: Action.delayMs 25000 :: r.2)
      else
        (Except.error (RetryError.provider e), [Action.acquireToken, Action.apiCall i])

/-- getEmbeddingWithRetry(textChunk, retries): run the loop from attempt
0 with the full budget (the source default is retries = 3). -/
def getEmbeddingWithRetry {α : Type} (provider : Nat → CallResult α)
    (retries : Nat) : Except RetryError α × List Action :=
  getEmbeddingLoop provider retries 0

theorem getEmbeddingLoop_ok {α : Type} (p : Nat → CallResult α) (fuel i : Nat)
    (v : α) (hp : p i = CallResult.ok v) :
    getEmbeddingLoop p (fuel + 1) i =
      (Except.ok v, [Action.acquireToken, Action.apiCall i]) := by
  simp only [getEmbeddingLoop, hp]

theorem getEmbeddingLoop_err429 {α : Type} (p : Nat → CallResult α) (fuel i : Nat)
    (e : ApiError) (hp : p i = CallResult.err e) (h429 : e.status = 429) :
    getEmbeddingLoop p (fuel + 1) i =
      ((getEmbeddingLoop p fuel (i + 1)).1,
        Action.acquireToken :: Action.apiCall i :: Action.delayMs 25000 ::
          (getEmbeddingLoop p fuel (i + 1)).2) := by
  simp only [getEmbeddingLoop, hp, if_pos h429]

theorem getEmbeddingLoop_errOther {α : Type} (p : Nat → CallResult α) (fuel i : Nat)
    (e : ApiError) (hp : p i = CallResult.err e) (h429 : ¬ e.status = 429) :
    getEmbeddingLoop p (fuel + 1) i =
      (Except.error (RetryError.provider e),
        [Action.acquireToken, Action.apiCall i]) := by
  simp only [getEmbeddingLoop, hp, if_neg h429]

/-- The action trace of n consecutive attempts that all fail with a
429-classified error starting at attempt i: each attempt acquires a
token, performs the call, then awaits the fixed 25000 ms cooldown. -/
def allThrottledTrace : Nat → Nat → List Action
  | _, 0 => []
  | i, n + 1 =>
    Action.acquireToken :: Action.apiCall i :: Action.delayMs 25000 ::
      allThrottledTrace (i + 1) n

def isApiCall : Action → Bool
  | Action.apiCall _ => true
  | _ => false

def isCooldown : Action → Bool
  | Action.delayMs ms => ms == 25000
  | _ => false

def isAcquire : Action → Bool
  | Action.acquireToken => true
  | _ => false

/-- Number of outbound calls performed in a trace. -/
def numCalls (tr : List Action) : Nat := tr.countP isApiCall

/-- Number of 25000 ms cooldown delays awaited in a trace. -/
def numCooldowns (tr : List Action) : Nat := tr.countP isCooldown

/-- Number of scheduler tokens acquired in a trace. -/
def numAcquires (tr : List Action) : Nat := tr.countP isAcquire

theorem getEmbeddingLoop_throttled {α : Type} (p : Nat → CallResult α)
    (hp : ∀ i, ∃ er, p i = CallResult.err er ∧ er.status = 429) :
    ∀ fuel i, getEmbeddingLoop p fuel i =
      (Except.error RetryError.maxRetries, allThrottledTrace i fuel) := by
  intro fuel
  induction fuel with
  | zero => intro i; rfl
  | succ fuel ih =>
    intro i
    obtain ⟨er, he, hs⟩ := hp i
    rw [getEmbeddingLoop_err429 p fuel i er he hs, ih (i + 1)]
    rfl

theorem allThrottledTrace_numCalls :
    ∀ n i, numCalls (allThrottledTrace i n) = n := by
  intro n
  induction n with
  | zero => intro i; rfl
  | succ n ih =>
    intro i
    unfold allThrottledTrace numCalls
    rw [List.countP_cons, List.countP_cons, List.countP_cons]
    have := ih (i + 1)
    unfold numCalls at this
    simp [isApiCall] at this ⊢
    omega

theorem allThrottledTrace_numCooldowns :
    ∀ n i, numCooldowns (allThrottledTrace i n) = n := by
  intro n
  induction n with
  | zero => intro i; rfl
  | succ n ih =>
    intro i
    unfold allThrottledTrace numCooldowns
    rw [List.countP_cons, List.countP_cons, List.countP_cons]
    have := ih (i + 1)
    unfold numCooldowns at this
    simp [isCooldown] at this ⊢
    omega

theorem allThrottledTrace_getLast :
    ∀ n i, (allThrottledTrace i (n + 1)).getLast? = some (Action.delayMs 25000) := by
  intro n
  induction n with
  | zero => intro i; rfl
  | succ n ih =>
    intro i
    show (Action.acquireToken :: Action.apiCall i :: Action.delayMs 25000 ::
      allThrottledTrace (i + 1) (n + 1)).getLast? = _
    rw [List.getLast?_cons_cons, List.getLast?_cons_cons]
    show (Action.delayMs 25000 :: Action.acquireToken :: Action.apiCall (i + 1) ::
      Action.delayMs 25000 :: allThrottledTrace (i + 2) n).getLast? = _
    rw [List.getLast?_cons_cons]
    exact ih (i + 1)

/-- **C3.** The invoker's retry policy: when every attempt fails with a
429-classified provider error, the invoker throws the distinct
max-retries error after exactly `retries` attempts and no more, and its
trace is exactly `retries` repetitions of acquire-token / outbound-call /
25000 ms cooldown (each 429 failure is followed by the fixed cooldown and
a retry consuming one attempt); while a first attempt failing with any
non-429 error is propagated immediately to the caller after a single
outbound call, with no cooldown and no retry. -/
theorem c3_retry_policy {α : Type} (p q : Nat → CallResult α) (retries : Nat)
    (e : ApiError)
    (hp : ∀ i, ∃ er, p i = CallResult.err er ∧ er.status = 429)
    (hr : 1 ≤ retries) (hq : q 0 = CallResult.err e) (he : ¬ e.status = 429) :
    (getEmbeddingWithRetry p retries).1 = Except.error RetryError.maxRetries ∧
    (getEmbeddingWithRetry p retries).2 = allThrottledTrace 0 retries ∧
    numCalls (getEmbeddingWithRetry p retries).2 = retries ∧
    (getEmbeddingWithRetry q retries).1 = Except.error (RetryError.provider e) ∧
    (getEmbeddingWithRetry q retries).2 = [Action.acquireToken, Action.apiCall 0] := by
  have hthr := getEmbeddingLoop_throttled p hp retries 0
  obtain ⟨fuel, rfl⟩ : ∃ fuel, retries = fuel + 1 := ⟨retries - 1, by omega⟩
  have hqrun : getEmbeddingWithRetry q (fuel + 1) =
      (Except.error (RetryError.provider e),
        [Action.acquireToken, Action.apiCall 0]) := by
    show getEmbeddingLoop q (fuel + 1) 0 = _
    exact getEmbeddingLoop_errOther q fuel 0 e hq he
  refine ⟨?_, ?_, ?_, ?_, ?_⟩
  · show (getEmbeddingLoop p (fuel + 1) 0).1 = _
    rw [hthr]
  · show (getEmbeddingLoop p (fuel + 1) 0).2 = _
    rw [hthr]
  · show numCalls (getEmbeddingLoop p (fuel + 1) 0).2 = _
    rw [hthr]
    exact allThrottledTrace_numCalls (fuel + 1) 0
  · rw [hqrun]
  · rw [hqrun]

/-- A provider whose every call fails with status 429 (always
throttled). -/
def always429 : Nat → CallResult Nat := fun _ => CallResult.err (ApiError.mk 429)

/-- A provider whose every call fails with status 500 (a non-retryable
error). -/
def always500 : Nat → CallResult Nat := fun _ => CallResult.err (ApiError.mk 500)

theorem c3_witness :
    ((∀ i : Nat, ∃ er, always429 i = CallResult.err er ∧ er.status = 429) ∧
      (1:Nat) ≤ 3 ∧ always500 0 = CallResult.err (ApiError.mk 500) ∧
      ¬ (ApiError.mk 500).status = 429) ∧
    ((getEmbeddingWithRetry always429 3).1 = Except.error RetryError.maxRetries ∧
      (getEmbeddingWithRetry always429 3).2 = allThrottledTrace 0 3 ∧
      numCalls (getEmbeddingWithRetry always429 3).2 = 3 ∧
      (getEmbeddingWithRetry always500 3).1 =
        Except.error (RetryError.provider (ApiError.mk 500)) ∧
      (getEmbeddingWithRetry always500 3).2 =
        [Action.acquireToken, Action.apiCall 0]) :=
  ⟨⟨fun _ => ⟨ApiError.mk 429, rfl, rfl⟩, by decide, rfl, by decide⟩,
    c3_retry_policy always429 always500 3 (ApiError.mk 500)
      (fun _ => ⟨ApiError.mk 429, rfl, rfl⟩) (by decide) rfl (by decide)⟩

/-- **C10.** When every attempt fails with a 429-classified error, the
25000 ms cooldown is awaited after every failed attempt including the
final one — `retries` cooldowns in total, and the very last action before
the max-retries error is thrown is the cooldown delay. -/
theorem c10_cooldown_after_final_attempt {α : Type} (p : Nat → CallResult α)
    (retries : Nat)
    (hp : ∀ i, ∃ er, p i = CallResult.err er ∧ er.status = 429)
    (hr : 1 ≤ retries) :
    numCooldowns (getEmbeddingWithRetry p retries).2 = retries ∧
    (getEmbeddingWithRetry p retries).2.getLast? = some (Action.delayMs 25000) ∧
    (getEmbeddingWithRetry p retries).1 = Except.error RetryError.maxRetries := by
  have hthr := getEmbeddingLoop_throttled p hp retries 0
  obtain ⟨fuel, rfl⟩ : ∃ fuel, retries = fuel + 1 := ⟨retries - 1, by omega⟩
  refine ⟨?_, ?_, ?_⟩
  · show numCooldowns (getEmbeddingLoop p (fuel + 1) 0).2 = _
    rw [hthr]
    exact allThrottledTrace_numCooldowns (fuel + 1) 0
  · show (getEmbeddingLoop p (fuel + 1) 0).2.getLast? = _
    rw [hthr]
    exact allThrottledTrace_getLast fuel 0
  · show (getEmbeddingLoop p (fuel + 1) 0).1 = _
    rw [hthr]

theorem c10_witness :
    ((∀ i : Nat, ∃ er, always429 i = CallResult.err er ∧ er.status = 429) ∧
      (1:Nat) ≤ 3) ∧
    (numCooldowns (getEmbeddingWithRetry always429 3).2 = 3 ∧
      (getEmbeddingWithRetry always429 3).2.getLast? = some (Action.delayMs 25000) ∧
      (getEmbeddingWithRetry always429 3).1 = Except.error RetryError.maxRetries) :=
  ⟨⟨fun _ => ⟨ApiError.mk 429, rfl, rfl⟩, by decide⟩,
    c10_cooldown_after_final_attempt always429 3
      (fun _ => ⟨ApiError.mk 429, rfl, rfl⟩) (by decide)⟩

/-- Every outbound call in the trace is immediately preceded by a
scheduler token acquisition. -/
def tokenGated : List Action → Bool
  | [] => true
  | Action.acquireToken :: Action.apiCall _ :: rest => tokenGated rest
  | Action.apiCall _ :: _ => false
  | Action.acquireToken :: rest => tokenGated rest
  | Action.delayMs _ :: rest => tokenGated rest
  | Action.storageCall :: rest => tokenGated rest

theorem getEmbeddingLoop_tokenGated {α : Type} (p : Nat → CallResult α) :
    ∀ fuel i, tokenGated (getEmbeddingLoop p fuel i).2 = true ∧
      numAcquires (getEmbeddingLoop p fuel i).2 =
        numCalls (getEmbeddingLoop p fuel i).2 := by
  intro fuel
  induction fuel with
  | zero => intro i; exact ⟨rfl, rfl⟩
  | succ fuel ih =>
    intro i
    cases hp : p i with
    | ok v =>
      rw [getEmbeddingLoop_ok p fuel i v hp]
      exact ⟨rfl, rfl⟩
    | err e =>
      by_cases h429 : e.status = 429
      · rw [getEmbeddingLoop_err429 p fuel i e hp h429]
        obtain ⟨g1, g2⟩ := ih (i + 1)
        constructor
        · show tokenGated (Action.acquireToken :: Action.apiCall i ::
            Action.delayMs 25000 :: (getEmbeddingLoop p fuel (i + 1)).2) = true
          rw [show tokenGated (Action.acquireToken :: Action.apiCall i ::
            Action.delayMs 25000 :: (getEmbeddingLoop p fuel (i + 1)).2)
              = tokenGated (getEmbeddingLoop p fuel (i + 1)).2 from rfl]
          exact g1
        · show numAcquires (Action.acquireToken :: Action.apiCall i ::
            Action.delayMs 25000 :: (getEmbeddingLoop p fuel (i + 1)).2) = _
          unfold numAcquires numCalls at g2 ⊢
          rw [List.countP_cons, List.countP_cons, List.countP_cons,
            List.countP_cons, List.countP_cons, List.countP_cons]
          simp [isAcquire, isApiCall] at g2 ⊢
          omega
      · rw [getEmbeddingLoop_errOther p fuel i e hp h429]
        exact ⟨rfl, rfl⟩

/-- **C5.** Every attempt of the retrying invoker — the first and every
retry after a 429 cooldown — acquires a fresh scheduler token immediately
before its outbound call, for every provider behaviour and attempt
budget: in the invoker's trace each outbound call is directly preceded by
a token acquisition, and the number of acquisitions equals the number of
outbound calls (no retried attempt bypasses rate limiting, and no token
is acquired without a call). -/
theorem c5_fresh_token_each_attempt {α : Type} (p : Nat → CallResult α)
    (retries : Nat) :
    tokenGated (getEmbeddingWithRetry p retries).2 = true ∧
    numAcquires (getEmbeddingWithRetry p retries).2 =
      numCalls (getEmbeddingWithRetry p retries).2 :=
  getEmbeddingLoop_tokenGated p retries 0

/-
  Batch ingestion driver, embedded from storeEmbeddings (src/index.js
  lines 147-172, identical in src/unnamed/part_002): a for loop over the
  documents; per item a try block obtains the embedding through
  getEmbeddingWithRetry (called with its default budget of 3 attempts)
  and inserts the (content, embedding) row; an insert error hits
  `continue`, and a thrown embedding error is caught and logged by the
  catch block; either way the loop proceeds with the next index.
-/

/-- Terminal state of one batch item. -/
inductive ItemOutcome where
  | stored
  | embedFailed
  | storeFailed
  deriving Repr, DecidableEq

/-- Whether the retrying invoker succeeds for item i, where providers i
is the provider behaviour seen by item i's attempts. -/
def embedSucceeds {β : Type} (providers : Nat → Nat → CallResult β)
    (i : Nat) : Bool :=
  match (getEmbeddingWithRetry (providers i) 3).1 with
  | Except.ok _ => true
  | Except.error _ => false

/-- The body of one storeEmbeddings loop iteration for index i: embed via
the retrying invoker (a thrown error is caught: embedFailed), then insert
(an insert error hits continue: storeFailed). -/
def processItem {β : Type} (providers : Nat → Nat → CallResult β)
    (storeOk : Nat → Bool) (i : Nat) : ItemOutcome :=
  match (getEmbeddingWithRetry (providers i) 3).1 with
  | Except.error _ => ItemOutcome.embedFailed
  | Except.ok _ =>
    if storeOk i then ItemOutcome.stored else ItemOutcome.storeFailed

/-- The loop `for (let i = 0; i < documents.length; i++) { ... }`, with n
iterations remaining: every failure path of the body ends in continue or
in the catch block, so each iteration contributes its item's outcome and
the loop always advances to the next index. -/
def storeLoop {β : Type} (providers : Nat → Nat → CallResult β)
    (storeOk : Nat → Bool) : Nat → Nat → List (Nat × ItemOutcome)
  | _, 0 => []
  | i, n + 1 =>
    (i, processItem providers storeOk i) :: storeLoop providers storeOk (i + 1) n

/-- storeEmbeddings(documents): process the whole batch in input order.
The storeOk oracle tells whether the storage insert for item i succeeds. -/
def storeEmbeddings {α β : Type} (documents : List α)
    (providers : Nat → Nat → CallResult β) (storeOk : Nat → Bool) :
    List (Nat × ItemOutcome) :=
  storeLoop providers storeOk 0 documents.length

theorem storeLoop_map_fst {β : Type} (providers : Nat → Nat → CallResult β)
    (storeOk : Nat → Bool) :
    ∀ n i, (storeLoop providers storeOk i n).map Prod.fst = List.range' i n := by
  intro n
  induction n with
  | zero => intro i; rfl
  | succ n ih =>
    intro i
    show ((i, processItem providers storeOk i) ::
        storeLoop providers storeOk (i + 1) n).map Prod.fst = List.range' i (n + 1)
    rw [List.map_cons, ih (i + 1)]
    rfl

theorem storeLoop_mem {β : Type} (providers : Nat → Nat → CallResult β)
    (storeOk : Nat → Bool) :
    ∀ n i a o, (a, o) ∈ storeLoop providers storeOk i n →
      o = processItem providers storeOk a := by
  intro n
  induction n with
  | zero =>
    intro i a o h
    simp [storeLoop] at h
  | succ n ih =>
    intro i a o h
    have h' : (a, o) = (i, processItem providers storeOk i) ∨
        (a, o) ∈ storeLoop providers storeOk (i + 1) n := List.mem_cons.mp h
    rcases h' with h' | h'
    · have ha : a = i := congrArg Prod.fst h'
      have ho : o = processItem providers storeOk i := congrArg Prod.snd h'
      rw [ho, ha]
    · exact ih (i + 1) a o h'

/-- **C6.** The batch ingestion driver processes the items of a batch
strictly in input order and always completes: its output covers exactly
the indices 0, ..., length-1 in order, whatever the per-item provider
behaviours and storage outcomes; and each item's terminal state depends
only on that item's own oracles — stored exactly when its retrying
embedding call succeeds and its insert succeeds, embedding-failed exactly
when the retrying invoker exhausts its attempts or throws (so a failed
item is skipped and every later item is still processed; no failure
aborts the batch). -/
theorem c6_batch_completes_in_order {α β : Type} (documents : List α)
    (providers : Nat → Nat → CallResult β) (storeOk : Nat → Bool) :
    (storeEmbeddings documents providers storeOk).map Prod.fst
        = List.range documents.length ∧
    ∀ i o, (i, o) ∈ storeEmbeddings documents providers storeOk →
      ((o = ItemOutcome.stored ↔
          embedSucceeds providers i = true ∧ storeOk i = true) ∧
        (o = ItemOutcome.embedFailed ↔ embedSucceeds providers i = false)) := by
  constructor
  · rw [List.range_eq_range']
    exact storeLoop_map_fst providers storeOk documents.length 0
  · intro i o h
    have ho := storeLoop_mem providers storeOk documents.length 0 i o h
    rw [ho]
    unfold processItem embedSucceeds
    cases hres : (getEmbeddingWithRetry (providers i) 3).1 with
    | ok v => cases hst : storeOk i <;> simp
    | error e => simp

/-- The spec's concrete 5-item scenario: item index 2's provider is
always throttled (its retries exhaust), every other item embeds and
stores fine. -/
def docsFive : List Nat := [10, 11, 12, 13, 14]

def providersFive : Nat → Nat → CallResult Nat :=
  fun i => if i = 2 then fun _ => CallResult.err (ApiError.mk 429)
    else fun _ => CallResult.ok 0

def storeOkAll : Nat → Bool := fun _ => true

theorem c6_witness :
    (storeEmbeddings docsFive providersFive storeOkAll).map Prod.fst
        = List.range 5 ∧
    storeEmbeddings docsFive providersFive storeOkAll =
      [(0, ItemOutcome.stored), (1, ItemOutcome.stored),
        (2, ItemOutcome.embedFailed), (3, ItemOutcome.stored),
        (4, ItemOutcome.stored)] ∧
    ((2, ItemOutcome.embedFailed) ∈
        storeEmbeddings docsFive providersFive storeOkAll ∧
      ((ItemOutcome.embedFailed = ItemOutcome.stored ↔
          embedSucceeds providersFive 2 = true ∧ storeOkAll 2 = true) ∧
        (ItemOutcome.embedFailed = ItemOutcome.embedFailed ↔
          embedSucceeds providersFive 2 = false))) :=
  ⟨(c6_batch_completes_in_order docsFive providersFive storeOkAll).1,
    by decide,
    by decide,
    (c6_batch_completes_in_order docsFive providersFive storeOkAll).2 2
      ItemOutcome.embedFailed (by decide)⟩

/-
  Chat completion, embedded from generateChatResponse (src/index.js lines
  74-107) and generateMovieResponse (src/search.js lines 4-36): both
  await rateLimiter.waitForToken() once, perform one
  openai.chat.completions.create call, and in the catch block log and
  rethrow — there is no status === 429 check, no delay(25000) and no
  retry loop around chat calls.  The provider oracle maps the attempt
  number to that attempt's outcome (only attempt 0 is ever performed);
  message payloads, model parameters and the response text are irrelevant
  to the claims and abstracted by α.
-/

def generateChatResponse {α : Type} (provider : Nat → CallResult α) :
    Except ApiError α × List Action :=
  match provider 0 with
  | CallResult.ok v => (Except.ok v, [Action.acquireToken, Action.apiCall 0])
  | CallResult.err e => (Except.error e, [Action.acquireToken, Action.apiCall 0])

def generateMovieResponse {α : Type} (provider : Nat → CallResult α) :
    Except ApiError α × List Action :=
  match provider 0 with
  | CallResult.ok v => (Except.ok v, [Action.acquireToken, Action.apiCall 0])
  | CallResult.err e => (Except.error e, [Action.acquireToken, Action.apiCall 0])

/-- **C7 (counterexample).** Against a provider that always fails with
status 429, the chat-completion call performs exactly one outbound call,
awaits no 25000 ms cooldown, and propagates the 429 error immediately to
the caller — the 429-classified chat failure is not retried after a
cooldown, so chat completions do not pass through the retrying
invoker. -/
theorem c7_counterexample :
    (generateChatResponse (fun _ => CallResult.err (ApiError.mk 429)) :
        Except ApiError Nat × List Action)
      = (Except.error (ApiError.mk 429),
          [Action.acquireToken, Action.apiCall 0]) ∧
    numCooldowns (generateChatResponse (fun _ => CallResult.err (ApiError.mk 429)) :
        Except ApiError Nat × List Action).2 = 0 ∧
    numCalls (generateChatResponse (fun _ => CallResult.err (ApiError.mk 429)) :
        Except ApiError Nat × List Action).2 = 1 :=
  ⟨rfl, rfl, rfl⟩

/-- **C7 (amended).** Every chat-completion call acquires one scheduler
token immediately before its single outbound call, but is not wrapped in
the retrying invoker: any provider error — a 429 included — is propagated
immediately to the caller with no cooldown and no further attempt, in
both generateChatResponse and generateMovieResponse. -/
theorem c7_chat_not_retried {α : Type} (provider : Nat → CallResult α)
    (e : ApiError) (h : provider 0 = CallResult.err e) :
    (generateChatResponse provider).2 = [Action.acquireToken, Action.apiCall 0] ∧
    (generateChatResponse provider).1 = Except.error e ∧
    (generateMovieResponse provider).2 = [Action.acquireToken, Action.apiCall 0] ∧
    (generateMovieResponse provider).1 = Except.error e ∧
    numCooldowns (generateChatResponse provider).2 = 0 := by
  unfold generateChatResponse generateMovieResponse
  rw [h]
  exact ⟨rfl, rfl, rfl, rfl, rfl⟩

theorem c7_witness :
    always429 0 = CallResult.err (ApiError.mk 429) ∧
    ((generateChatResponse always429).2 =
        [Action.acquireToken, Action.apiCall 0] ∧
      (generateChatResponse always429).1 = Except.error (ApiError.mk 429) ∧
      (generateMovieResponse always429).2 =
        [Action.acquireToken, Action.apiCall 0] ∧
      (generateMovieResponse always429).1 = Except.error (ApiError.mk 429) ∧
      numCooldowns (generateChatResponse always429).2 = 0) :=
  ⟨rfl, c7_chat_not_retried always429 (ApiError.mk 429) rfl⟩

/-
  searchMovies, embedded from src/search.js lines 38-80: the guard
  `if (!query?.trim()) throw new Error(...)` runs before anything else;
  only afterwards does the function await rateLimiter.waitForToken(),
  perform the embedding call, query supabase.rpc match_movies (an error
  becomes the failed-search error), return early with an empty result
  when nothing matched, and otherwise produce the chat response through
  generateMovieResponse.  The user-facing message strings are abstracted;
  the result carries the similar-movies list.
-/

/-- The errors searchMovies can throw: the query-required guard error,
a propagated provider error (from the embedding or chat call), or the
failed-search error raised on a storage error. -/
inductive SearchErr where
  | queryRequired
  | provider (e : ApiError)
  | storageFailed
  deriving Repr, DecidableEq

/-- JS String.prototype.trim on the query's character list: strip leading
and trailing whitespace (Lean's String.trim is not kernel-reducible, so
the query is carried as its character list). -/
def jsTrim (s : List Char) : List Char :=
  ((s.dropWhile Char.isWhitespace).reverse.dropWhile Char.isWhitespace).reverse

/-- The guard `!query?.trim()`: true when the query is missing (optional
chaining yields undefined) or trims to the empty string. -/
def queryMissing : Option (List Char) → Bool
  | none => true
  | some q => jsTrim q == []

def searchMovies {α : Type} (query : Option (List Char)) (embed : CallResult α)
    (storage : CallResult (List α)) (chatProvider : Nat → CallResult String) :
    Except SearchErr (List α) × List Action :=
  if queryMissing query then
    (Except.error SearchErr.queryRequired, [])
  else
    match embed with
    | CallResult.err e =>
      (Except.error (SearchErr.provider e),
        [Action.acquireToken, Action.apiCall 0])
    | CallResult.ok _ =>
      match storage with
      | CallResult.err _ =>
        (Except.error SearchErr.storageFailed,
          [Action.acquireToken, Action.apiCall 0, Action.storageCall])
      | CallResult.ok movies =>
        if movies.isEmpty then
          (Except.ok movies,
            [Action.acquireToken, Action.apiCall 0, Action.storageCall])
        else
          match generateMovieResponse chatProvider with
          | (Except.ok _, tr) =>
            (Except.ok movies,
              [Action.acquireToken, Action.apiCall 0, Action.storageCall] ++ tr)
          | (Except.error e, tr) =>
            (Except.error (SearchErr.provider e),
              [Action.acquireToken, Action.apiCall 0, Action.storageCall] ++ tr)

/-- **C9.** searchMovies called with a missing, empty, or whitespace-only
query throws the query-required error with an empty action trace: no
scheduler token is acquired and no outbound provider or storage call is
made before the throw, so the scheduler's token count is untouched —
whatever the embedding, storage and chat oracles would have answered. -/
theorem c9_empty_query_guard {α : Type} (query : Option (List Char))
    (embed : CallResult α) (storage : CallResult (List α))
    (chatProvider : Nat → CallResult String)
    (h : query = none ∨ ∃ q, query = some q ∧ jsTrim q = []) :
    searchMovies query embed storage chatProvider
      = (Except.error SearchErr.queryRequired, []) := by
  have hm : queryMissing query = true := by
    rcases h with h | ⟨q, hq, ht⟩
    · rw [h]; rfl
    · rw [hq]
      show (jsTrim q == []) = true
      rw [ht]
      rfl
  unfold searchMovies
  rw [if_pos hm]

/-- A whitespace-only query: three spaces. -/
def blankQuery : List Char := [' ', ' ', ' ']

theorem c9_witness :
    (Option.some blankQuery = none ∨
      ∃ q, Option.some blankQuery = some q ∧ jsTrim q = []) ∧
    searchMovies (Option.some blankQuery) (CallResult.ok 0)
        (CallResult.ok ([] : List Nat)) (fun _ => CallResult.err (ApiError.mk 429))
      = (Except.error SearchErr.queryRequired, []) :=
  ⟨Or.inr ⟨blankQuery, rfl, by decide⟩,
    c9_empty_query_guard (Option.some blankQuery) (CallResult.ok 0)
      (CallResult.ok []) (fun _ => CallResult.err (ApiError.mk 429))
      (Or.inr ⟨blankQuery, rfl, by decide⟩)⟩

end VecEmb
